import Mathlib

/-
Verification of the streaming response decoder/renderer of yaicli
(src/yaicli.py) and of the chat-session store described by the design
document.  Python strings are modelled as `String` / `List Char`, Python
dictionaries produced by `json.loads` as association lists preserving
insertion order (lookups take the last binding, as `dict` does), and
Python exceptions as the `Except` monad.
-/

namespace Yaicli

/-- JSON values as produced by `json.loads`.  Numbers keep their raw
lexeme: no claim inspects numeric values, only truthiness. -/
inductive Json where
  | null
  | bool (b : Bool)
  | num (s : String)
  | str (s : String)
  | arr (xs : List Json)
  | obj (kvs : List (String × Json))

/-- Opening brace character. -/
def lbrace : Char := Char.ofNat 123

/-- Closing brace character. -/
def rbrace : Char := Char.ofNat 125

/-- JSON whitespace. -/
def isWs (c : Char) : Bool := c = ' ' || c = '\t' || c = '\n' || c = '\r'

/-- Skip leading JSON whitespace. -/
def skipWs : List Char → List Char
  | [] => []
  | c :: rest => if isWs c then skipWs rest else c :: rest

/-- Hexadecimal digit value. -/
def hexVal (c : Char) : Option Nat :=
  if '0' ≤ c ∧ c ≤ '9' then some (c.toNat - 48)
  else if 'a' ≤ c ∧ c ≤ 'f' then some (c.toNat - 87)
  else if 'A' ≤ c ∧ c ≤ 'F' then some (c.toNat - 55)
  else none

/-- Single-character JSON string escapes. -/
def escChar (c : Char) : Option Char :=
  if c = '"' then some '"'
  else if c = '\\' then some '\\'
  else if c = '/' then some '/'
  else if c = 'b' then some (Char.ofNat 8)
  else if c = 'f' then some (Char.ofNat 12)
  else if c = 'n' then some '\n'
  else if c = 'r' then some (Char.ofNat 13)
  else if c = 't' then some '\t'
  else none

/-- Parse the body of a JSON string (after the opening quote); returns
the decoded characters and the remainder after the closing quote. -/
def parseStringBody : Nat → List Char → Option (List Char × List Char)
  | 0, _ => none
  | _, [] => none
  | fuel + 1, c :: rest =>
    if c = '"' then some ([], rest)
    else if c = '\\' then
      match rest with
      | [] => none
      | e :: rest2 =>
        if e = 'u' then
          match rest2 with
          | a :: b :: c2 :: d :: rest3 =>
            match hexVal a, hexVal b, hexVal c2, hexVal d with
            | some ha, some hb, some hc, some hd =>
              match parseStringBody fuel rest3 with
              | some (s, r) =>
                some (Char.ofNat (((ha * 16 + hb) * 16 + hc) * 16 + hd) :: s, r)
              | none => none
            | _, _, _, _ => none
          | _ => none
        else
          match escChar e with
          | some ch =>
            match parseStringBody fuel rest2 with
            | some (s, r) => some (ch :: s, r)
            | none => none
          | none => none
    else if c.toNat < 32 then none
    else
      match parseStringBody fuel rest with
      | some (s, r) => some (c :: s, r)
      | none => none

/-- Take the maximal run of decimal digits. -/
def spanDigits : List Char → List Char × List Char
  | [] => ([], [])
  | c :: rest =>
    if '0' ≤ c ∧ c ≤ '9' then
      let p := spanDigits rest
      (c :: p.1, p.2)
    else ([], c :: rest)

/-- Optional exponent part of a JSON number. -/
def parseExpPart (acc : List Char) (l : List Char) : Option (List Char × List Char) :=
  match l with
  | [] => some (acc, [])
  | e :: rest =>
    if e = 'e' ∨ e = 'E' then
      let p : List Char × List Char :=
        match rest with
        | '+' :: t => (['+'], t)
        | '-' :: t => (['-'], t)
        | _ => ([], rest)
      match p.2 with
      | [] => none
      | c :: _ =>
        if '0' ≤ c ∧ c ≤ '9' then
          let q := spanDigits p.2
          some (acc ++ e :: p.1 ++ q.1, q.2)
        else none
    else some (acc, l)

/-- Optional fraction part (then exponent) of a JSON number. -/
def parseFracPart (acc : List Char) (l : List Char) : Option (List Char × List Char) :=
  match l with
  | '.' :: rest =>
    (match rest with
     | [] => none
     | c :: _ =>
       if '0' ≤ c ∧ c ≤ '9' then
         let q := spanDigits rest
         parseExpPart (acc ++ '.' :: q.1) q.2
       else none)
  | _ => parseExpPart acc l

/-- Parse a JSON number lexeme (strict grammar, as `json.loads`). -/
def parseNumber (l : List Char) : Option (List Char × List Char) :=
  let p : List Char × List Char :=
    match l with
    | '-' :: t => (['-'], t)
    | _ => ([], l)
  match p.2 with
  | [] => none
  | c :: rest =>
    if c = '0' then parseFracPart (p.1 ++ ['0']) rest
    else if '1' ≤ c ∧ c ≤ '9' then
      let q := spanDigits rest
      parseFracPart (p.1 ++ c :: q.1) q.2
    else none

/-- Literal `null`. -/
def nullLit : List Char := ['n', 'u', 'l', 'l']

/-- Literal `true`. -/
def trueLit : List Char := ['t', 'r', 'u', 'e']

/-- Literal `false`. -/
def falseLit : List Char := ['f', 'a', 'l', 's', 'e']

mutual

/-- Parse one JSON value (fuel-indexed recursion). -/
def parseVal : Nat → List Char → Option (Json × List Char)
  | 0, _ => none
  | fuel + 1, l =>
    let l1 := skipWs l
    if nullLit.isPrefixOf l1 then some (Json.null, l1.drop 4)
    else if trueLit.isPrefixOf l1 then some (Json.bool true, l1.drop 4)
    else if falseLit.isPrefixOf l1 then some (Json.bool false, l1.drop 5)
    else
      match l1 with
      | [] => none
      | c :: rest =>
        if c = '"' then
          match parseStringBody (fuel + 1) rest with
          | some (s, r) => some (Json.str (String.mk s), r)
          | none => none
        else if c = lbrace then parseObjBody fuel (skipWs rest)
        else if c = '[' then parseArrBody fuel (skipWs rest)
        else
          match parseNumber l1 with
          | some (lex, r) => some (Json.num (String.mk lex), r)
          | none => none

/-- Parse an array body (after `[` and whitespace). -/
def parseArrBody : Nat → List Char → Option (Json × List Char)
  | 0, _ => none
  | fuel + 1, l =>
    match l with
    | ']' :: rest => some (Json.arr [], rest)
    | _ =>
      match parseVal fuel l with
      | some (v, r) => parseArrRest fuel [v] r
      | none => none

/-- Parse the rest of an array after at least one element. -/
def parseArrRest : Nat → List Json → List Char → Option (Json × List Char)
  | 0, _, _ => none
  | fuel + 1, acc, l =>
    match skipWs l with
    | ',' :: rest =>
      match parseVal fuel rest with
      | some (v, r) => parseArrRest fuel (acc ++ [v]) r
      | none => none
    | ']' :: rest => some (Json.arr acc, rest)
    | _ => none

/-- Parse an object body (after the opening brace and whitespace). -/
def parseObjBody : Nat → List Char → Option (Json × List Char)
  | 0, _ => none
  | fuel + 1, l =>
    match l with
    | [] => none
    | c :: rest =>
      if c = rbrace then some (Json.obj [], rest)
      else if c = '"' then
        match parseStringBody fuel rest with
        | some (k, r) =>
          (match skipWs r with
           | ':' :: r2 =>
             match parseVal fuel r2 with
             | some (v, r3) => parseObjRest fuel [(String.mk k, v)] r3
             | none => none
           | _ => none)
        | none => none
      else none

/-- Parse the rest of an object after at least one member. -/
def parseObjRest : Nat → List (String × Json) → List Char → Option (Json × List Char)
  | 0, _, _ => none
  | fuel + 1, acc, l =>
    match skipWs l with
    | [] => none
    | ',' :: rest =>
      (match skipWs rest with
       | '"' :: r1 =>
         match parseStringBody fuel r1 with
         | some (k, r) =>
           (match skipWs r with
            | ':' :: r2 =>
              match parseVal fuel r2 with
              | some (v, r3) => parseObjRest fuel (acc ++ [(String.mk k, v)]) r3
              | none => none
            | _ => none)
         | none => none
       | _ => none)
    | c :: rest => if c = rbrace then some (Json.obj acc, rest) else none

end

/-- `json.loads` on a character sequence: a single value, possibly
surrounded by whitespace; trailing garbage is a decode error. -/
def jsonParseChars (l : List Char) : Option Json :=
  match parseVal (l.length + 1) l with
  | some (v, r) => if skipWs r = [] then some v else none
  | none => none

/-! ### Python dictionary / truthiness semantics -/

/-- Dictionary lookup on an insertion-ordered association list: the last
binding of a key wins, as in a Python `dict` built by `json.loads`. -/
def objGet (kvs : List (String × Json)) (k : String) : Option Json :=
  kvs.foldl (fun acc p => if p.1 = k then some p.2 else acc) none

/-- Zero test on a JSON number lexeme: the mantissa (before any
exponent marker) consists only of `0`, `-` and `.`. -/
def numIsZero (s : String) : Bool :=
  (s.data.takeWhile (fun c => c ≠ 'e' ∧ c ≠ 'E')).all
    (fun c => c = '0' || c = '-' || c = '.')

/-- Python truthiness of a decoded JSON value. -/
def pyTruthy : Json → Bool
  | Json.null => false
  | Json.bool b => b
  | Json.num s => !numIsZero s
  | Json.str s => s != ""
  | Json.arr xs => !xs.isEmpty
  | Json.obj kvs => !kvs.isEmpty

/-- Truthiness of the result of `dict.get`: a missing key gives `None`,
which is falsy. -/
def truthyOpt : Option Json → Bool
  | none => false
  | some v => pyTruthy v

/-- Substring test, as Python's `in` on strings. -/
def hasSubstring (pat : List Char) : List Char → Bool
  | [] => pat.isPrefixOf []
  | c :: t => pat.isPrefixOf (c :: t) || hasSubstring pat t

/-- Python's membership operator `k in j` for a string `k`: key test on
dicts, element equality on lists, substring test on strings, `TypeError`
otherwise. -/
def pyIn (k : String) (j : Json) : Except String Bool :=
  match j with
  | Json.obj kvs => .ok ((objGet kvs k).isSome)
  | Json.arr xs =>
    .ok (xs.any (fun x => match x with | Json.str s => s == k | _ => false))
  | Json.str s => .ok (hasSubstring k.data s.data)
  | _ => .error "TypeError: argument is not iterable"

/-- Python subscript `j[k]` with a string key: dict lookup raising
`KeyError` on a miss, `TypeError` on non-dicts. -/
def pySubscriptStr (j : Json) (k : String) : Except String Json :=
  match j with
  | Json.obj kvs =>
    (match objGet kvs k with
     | some v => .ok v
     | none => .error ("KeyError: " ++ k))
  | _ => .error "TypeError: not subscriptable by string"

/-- Python subscript `j[n]` with an integer index: list indexing
(`IndexError` out of range), single-character extraction on strings,
`KeyError` on dicts (JSON keys are strings), `TypeError` otherwise. -/
def pySubscriptNat (j : Json) (n : Nat) : Except String Json :=
  match j with
  | Json.arr xs =>
    (match xs.get? n with
     | some v => .ok v
     | none => .error "IndexError: list index out of range")
  | Json.str s =>
    (match s.data.get? n with
     | some c => .ok (Json.str (String.mk [c]))
     | none => .error "IndexError: string index out of range")
  | Json.obj _ => .error "KeyError: integer key"
  | _ => .error "TypeError: not subscriptable"

/-- Python `dict.get(k, dflt)`: `AttributeError` on non-dicts. -/
def pyDictGet (j : Json) (k : String) (dflt : Json) : Except String Json :=
  match j with
  | Json.obj kvs => .ok ((objGet kvs k).getD dflt)
  | _ => .error "AttributeError: get"

/-- The value of `v or \x22\x22` followed by `+=` onto a string: a falsy
value collapses to the empty string, a truthy string is itself, and a
truthy non-string raises `TypeError` at the concatenation. -/
def pyOrEmpty (v : Json) : Except String String :=
  if pyTruthy v then
    match v with
    | Json.str s => .ok s
    | _ => .error "TypeError: can only concatenate str"
  else .ok ""

/-- `v.replace` demands a string receiver (`AttributeError` otherwise);
this extracts it. -/
def pyStrAttr (v : Json) : Except String String :=
  match v with
  | Json.str s => .ok s
  | _ => .error "AttributeError: replace"

/-! ### The streaming decoder (yaicli.py lines 277-356) -/

/-- `reason.replace(\x22\n\x22, \x22\n> \x22)`: every line feed becomes a
line feed followed by the quote marker. -/
def replaceLF : List Char → List Char
  | [] => []
  | c :: rest =>
    if c = '\n' then '\n' :: '>' :: ' ' :: replaceLF rest
    else c :: replaceLF rest

/-- String-level wrapper for `replaceLF`. -/
def pyReplaceLF (s : String) : String := String.mk (replaceLF s.data)

/-- The characters of the wire prefix `data: `. -/
def dataMarker : List Char := ['d', 'a', 't', 'a', ':', ' ']

/-- The characters of the terminal sentinel payload `[DONE]`. -/
def doneChars : List Char := ['[', 'D', 'O', 'N', 'E', ']']

/-- Outcome of `CLI._parse_stream_line` on one line: `skip` models a
`None` return, `event` a returned JSON object, `fail` an uncaught
exception. -/
inductive LineResult where
  | skip
  | event (j : Json)
  | fail (msg : String)

/-- Diagnostics printed by `CLI._parse_stream_line` when `json.loads`
raises `JSONDecodeError` (yaicli.py lines 305-309): a generic message is
always printed, the offending payload only in verbose mode. -/
def decodeErrorDiags (verbose : Bool) (payload : List Char) : List String :=
  "[red]Error decoding response JSON[/red]" ::
    (if verbose then ["[red]Error JSON data: " ++ String.mk payload ++ "[/red]"]
     else [])

/-- Embedding of `CLI._parse_stream_line` (yaicli.py lines 285-309).
A line is its character sequence (bytes are utf-8 decoded by the
source, so both arms of `Union[bytes, str]` collapse to one).  Returns
the parse outcome together with the console diagnostics the call
printed. -/
def parse_stream_line (verbose : Bool) (line : List Char) :
    LineResult × List String :=
  if line = [] then (LineResult.skip, [])
  else if !(dataMarker.isPrefixOf line) then (LineResult.skip, [])
  else
    let payload := line.drop 6
    if payload = doneChars then (LineResult.skip, [])
    else
      match jsonParseChars payload with
      | some j =>
        (match j with
         | Json.obj kvs =>
           if truthyOpt (objGet kvs "choices") then (LineResult.event j, [])
           else (LineResult.skip, [])
         | _ => (LineResult.fail "AttributeError: get", []))
      | none => (LineResult.skip, decodeErrorDiags verbose payload)

/-- Embedding of `CLI.get_reasoning_content` (yaicli.py lines 277-283):
probe the keys `reasoning_content` then `reasoning`, returning the
first present value; `none` models the `return None` fall-through.  A
JSON `null` value is returned as `some Json.null`: the caller's
`is not None` test treats it like an absent key. -/
def get_reasoning_content (delta : Json) : Except String (Option Json) := do
  let b1 ← pyIn "reasoning_content" delta
  if b1 then
    let v ← pySubscriptStr delta "reasoning_content"
    return some v
  else
    let b2 ← pyIn "reasoning" delta
    if b2 then
      let v ← pySubscriptStr delta "reasoning"
      return some v
    else
      return none

/-- Embedding of `CLI._process_reasoning_content` (yaicli.py lines
311-317): on entry to reasoning mode the buffer is reset to the quoted
header; the transformed reasoning text is then appended. -/
def process_reasoning_content (reason full_completion : String)
    (in_reasoning : Bool) : String × Bool :=
  let s : String × Bool :=
    if in_reasoning then (full_completion, in_reasoning)
    else ("> Reasoning:\n> ", true)
  (s.1 ++ pyReplaceLF reason, s.2)

/-- Embedding of `CLI._process_regular_content` (yaicli.py lines
319-325): leaving reasoning mode appends a blank-line separator; the
content is then appended. -/
def process_regular_content (content full_completion : String)
    (in_reasoning : Bool) : String × Bool :=
  let s : String × Bool :=
    if in_reasoning then (full_completion ++ "\n\n", false)
    else (full_completion, in_reasoning)
  (s.1 ++ content, s.2)

/-- Accumulator state of `CLI._print_stream`: the growing transcript and
the `in_reasoning` flag. -/
structure StreamState where
  full_content : String
  in_reasoning : Bool
deriving DecidableEq

/-- The subscript chain `json_data[\x22choices\x22][0][\x22delta\x22]`
of yaicli.py line 341. -/
def get_delta (j : Json) : Except String Json := do
  let choices ← pySubscriptStr j "choices"
  let c0 ← pySubscriptNat choices 0
  pySubscriptStr c0 "delta"

/-- The delta-dispatch of `CLI._print_stream` (yaicli.py lines 342-349):
reasoning content when `get_reasoning_content` gave a non-`None` value,
regular content (with `delta.get(\x22content\x22, \x22\x22) or \x22\x22`)
otherwise. -/
def handle_delta (delta : Json) (st : StreamState) :
    Except String StreamState := do
  let reasonRet ← get_reasoning_content delta
  let reason : Option Json :=
    match reasonRet with
    | some Json.null => none
    | r => r
  match reason with
  | some v => do
    let r ← pyStrAttr v
    let p := process_reasoning_content r st.full_content st.in_reasoning
    pure ⟨p.1, p.2⟩
  | none => do
    let cv ← pyDictGet delta "content" (Json.str "")
    let c ← pyOrEmpty cv
    let p := process_regular_content c st.full_content st.in_reasoning
    pure ⟨p.1, p.2⟩

/-- One iteration of the `for line in response.iter_lines()` loop of
`CLI._print_stream` (yaicli.py lines 336-354): parse the line, skip on a
`None` result, otherwise fold the delta into the accumulator.  Returns
the new state, whether a delta event was processed, and the diagnostics
printed; `.error` models an uncaught exception. -/
def stream_step (verbose : Bool) (line : List Char) (st : StreamState) :
    Except String (StreamState × Bool × List String) :=
  match parse_stream_line verbose line with
  | (LineResult.skip, ds) => .ok (st, false, ds)
  | (LineResult.fail m, _) => .error m
  | (LineResult.event j, ds) =>
    match (do
        let d ← get_delta j
        handle_delta d st : Except String StreamState) with
    | .ok st2 => .ok (st2, true, ds)
    | .error m => .error m

/-- Final outcome of decoding a whole line sequence: either the loop
finishes with a state, an event count and the diagnostics printed, or an
uncaught exception aborts it. -/
inductive StreamOutcome where
  | done (st : StreamState) (events : Nat) (diags : List String)
  | failed (msg : String)
deriving DecidableEq

/-- The line-folding loop of `CLI._print_stream`, parameterised by the
current state, event count and accumulated diagnostics. -/
def print_stream_from (verbose : Bool) :
    List (List Char) → StreamState → Nat → List String → StreamOutcome
  | [], st, ev, ds => StreamOutcome.done st ev ds
  | l :: ls, st, ev, ds =>
    match stream_step verbose l st with
    | .ok (st2, emitted, d2) =>
      print_stream_from verbose ls st2 (if emitted then ev + 1 else ev) (ds ++ d2)
    | .error m => StreamOutcome.failed m

/-- Embedding of `CLI._print_stream` (yaicli.py lines 327-356): fold the
response lines starting from the empty buffer with `in_reasoning` false.
The live repaints carry no information beyond the state, so they are not
modelled. -/
def print_stream (verbose : Bool) (lines : List (List Char)) : StreamOutcome :=
  print_stream_from verbose lines ⟨"", false⟩ 0 []

/-! ### The durable chat-session store

The `FileChatManager` implementation is not part of the sources at hand
(only its test suite is), so the store is modelled from the design
document: filename grammar and codec from section 3, `saveChat` /
`listChats` / `loadChatByTitle` and eviction from section 4.2. -/

/-- A `\x7brole, content\x7d` message record. -/
structure ChatMessage where
  role : String
  content : String
deriving DecidableEq

/-- The session file schema `\x7btitle, date, history\x7d`. -/
structure SessionData where
  title : String
  date : String
  history : List ChatMessage
deriving DecidableEq

/-- One on-disk session file: its name (a character sequence), its
parsed content and its modification time. -/
structure SessionFile where
  filename : List Char
  data : SessionData
  mtime : Nat
deriving DecidableEq

/-- Modelled from the spec: the store's directory plus the
`MAX_SAVED_CHATS` eviction cap (section 6 collaborators). -/
structure ChatStore where
  files : List SessionFile
  maxSaved : Nat
deriving DecidableEq

/-- A save-time timestamp, already broken into calendar fields; the
codec only ever formats it. -/
structure DateTime where
  year : Nat
  month : Nat
  day : Nat
  hour : Nat
  minute : Nat
  second : Nat
deriving DecidableEq

/-- Two zero-padded decimal digits. -/
def pad2 (n : Nat) : List Char :=
  [Nat.digitChar (n / 10 % 10), Nat.digitChar (n % 10)]

/-- Four zero-padded decimal digits. -/
def pad4 (n : Nat) : List Char :=
  [Nat.digitChar (n / 1000 % 10), Nat.digitChar (n / 100 % 10),
   Nat.digitChar (n / 10 % 10), Nat.digitChar (n % 10)]

/-- Modelled from the spec: the `YYYYMMDD-HHMMSS` timestamp prefix of a
session filename (section 3, filename encoding). -/
def tsChars (t : DateTime) : List Char :=
  pad4 t.year ++ pad2 t.month ++ pad2 t.day ++ ['-'] ++
    pad2 t.hour ++ pad2 t.minute ++ pad2 t.second

/-- The literal separator token `-title-` of the filename grammar. -/
def sepChars : List Char := ['-', 't', 'i', 't', 'l', 'e', '-']

/-- The filename extension `.json`. -/
def extChars : List Char := ['.', 'j', 's', 'o', 'n']

/-- Encoding direction of the slug: spaces become underscores. -/
def toSlugChar (c : Char) : Char := if c = ' ' then '_' else c

/-- Decoding direction of the slug: underscores become spaces. -/
def fromSlugChar (c : Char) : Char := if c = '_' then ' ' else c

/-- Modelled from the spec: FilenameCodec.encode — the filename
`<YYYYMMDD-HHMMSS>-title-<slug>.json` where the slug is the title with
spaces replaced by underscores (section 3). -/
def encodeFilename (t : DateTime) (title : String) : List Char :=
  tsChars t ++ sepChars ++ title.data.map toSlugChar ++ extChars

/-- Split a list at the first occurrence of a separator token; `none`
when the token does not occur. -/
def splitOnFirst (sep : List Char) : List Char → Option (List Char × List Char)
  | [] => none
  | c :: rest =>
    if sep.isPrefixOf (c :: rest) then some ([], (c :: rest).drop sep.length)
    else
      match splitOnFirst sep rest with
      | some (l, r) => some (c :: l, r)
      | none => none

/-- Strip the `.json` extension from a filename to get its stem. -/
def stemOf (f : List Char) : List Char :=
  if extChars.isSuffixOf f then f.take (f.length - 5) else f

/-- Modelled from the spec: the displayed date `YYYY-MM-DD HH:MM` of a
well-formed timestamp prefix, the empty string if unparsable
(section 3). -/
def dateDisplay (l : List Char) : String :=
  match l with
  | [y1, y2, y3, y4, mo1, mo2, d1, d2, '-', h1, h2, mi1, mi2, s1, s2] =>
    if [y1, y2, y3, y4, mo1, mo2, d1, d2, h1, h2, mi1, mi2, s1, s2].all Char.isDigit
    then String.mk ([y1, y2, y3, y4] ++ ['-'] ++ [mo1, mo2] ++ ['-'] ++ [d1, d2]
           ++ [' '] ++ [h1, h2] ++ [':'] ++ [mi1, mi2])
    else ""
  | _ => ""

/-- Decoded listing fields of one session filename. -/
structure ChatInfo where
  title : String
  date : String
deriving DecidableEq

/-- Modelled from the spec: FilenameCodec.decode on a stem — split on
the first `-title-`, restore underscores to spaces on the right part,
display the left part as a date; an irregular stem yields the stem with
underscores restored and an empty date, never an error (section 3). -/
def decodeStem (stem : List Char) : ChatInfo :=
  match splitOnFirst sepChars stem with
  | some (l, r) => ⟨String.mk (r.map fromSlugChar), dateDisplay l⟩
  | none => ⟨String.mk (stem.map fromSlugChar), ""⟩

/-- The oldest-by-mtime file other than the one just written. -/
def oldestOther (files : List SessionFile) (keep : List Char) : Option SessionFile :=
  (files.filter (fun f => f.filename != keep)).foldl
    (fun acc f =>
      match acc with
      | none => some f
      | some g => if f.mtime < g.mtime then some f else some g)
    none

/-- Eviction worker: repeatedly delete the oldest file that is not the
just-saved one while the count exceeds the cap. -/
def evictAux : Nat → List SessionFile → Nat → List Char → List SessionFile
  | 0, files, _, _ => files
  | fuel + 1, files, cap, keep =>
    if files.length ≤ cap then files
    else
      match oldestOther files keep with
      | some victim =>
        evictAux fuel (files.filter (fun f => f.filename != victim.filename)) cap keep
      | none => files

/-- Modelled from the spec: oldest-first eviction down to
`MAX_SAVED_CHATS` after a successful save, never removing the file just
written (section 4.2). -/
def evict (files : List SessionFile) (cap : Nat) (keep : List Char) :
    List SessionFile :=
  evictAux files.length files cap keep

/-- Modelled from the spec: `saveChat(history, title?) -> title`
(sections 3 and 4.2).  An empty history writes nothing and returns the
empty string; a missing title falls back to `Chat-<unix-timestamp>` (the
prompt-derived branch is not exercised by any claim and is left out); a
save with an existing filename fully rewrites that file, otherwise a new
file is created; eviction then enforces the cap.  `now` is the save-time
timestamp and `unix` the save-time mtime. -/
def save_chat (st : ChatStore) (history : List ChatMessage)
    (titleOpt : Option String) (now : DateTime) (unix : Nat) :
    ChatStore × String :=
  if history.isEmpty then (st, "")
  else
    let title := titleOpt.getD ("Chat-" ++ Nat.repr unix)
    let fname := encodeFilename now title
    let entry : SessionFile := ⟨fname, ⟨title, String.mk (tsChars now), history⟩, unix⟩
    let files :=
      if st.files.any (fun f => f.filename == fname)
      then st.files.map (fun f => if f.filename = fname then entry else f)
      else st.files ++ [entry]
    (⟨evict files st.maxSaved fname, st.maxSaved⟩, title)

/-- One row of `listChats()`. -/
structure ChatListing where
  index : Nat
  title : String
  date : String
  filename : List Char
deriving DecidableEq

/-- Insert a file into a most-recent-first list. -/
def insertByMtime (f : SessionFile) : List SessionFile → List SessionFile
  | [] => [f]
  | g :: rest =>
    if g.mtime ≤ f.mtime then f :: g :: rest else g :: insertByMtime f rest

/-- Sort files by modification time, most recent first. -/
def sortByMtimeDesc (files : List SessionFile) : List SessionFile :=
  files.foldr insertByMtime []

/-- Modelled from the spec: `listChats()` — directory contents sorted by
modification time descending, each decoded via the filename codec, with
1-based indexes assigned in listing order (section 4.2). -/
def list_chats (st : ChatStore) : List ChatListing :=
  (sortByMtimeDesc st.files).enum.map
    (fun p =>
      let info := decodeStem (stemOf p.2.filename)
      ⟨p.1 + 1, info.title, info.date, p.2.filename⟩)

/-- Modelled from the spec: `loadChatByTitle(title)` — resolve the title
against the listing, then read that file; an empty result on a miss
(section 4.2; corrupt files are out of scope of the claims settled
here, so file contents are kept structured). -/
def load_chat_by_title (st : ChatStore) (title : String) : Option SessionData :=
  match (list_chats st).find? (fun e => e.title == title) with
  | some e =>
    (match st.files.find? (fun f => f.filename == e.filename) with
     | some f => some f.data
     | none => none)
  | none => none

/-! ### Shared lemmas -/

/-- Bind on an `ok` value. -/
theorem except_bind_ok {ε α β : Type} (a : α) (f : α → Except ε β) :
    (Except.ok a : Except ε α) >>= f = f a := rfl

/-- Bind on an `error` value. -/
theorem except_bind_err {ε α β : Type} (e : ε) (f : α → Except ε β) :
    (Except.error e : Except ε α) >>= f = Except.error e := rfl

/-- Appending the empty string is the identity. -/
theorem string_append_empty (s : String) : s ++ "" = s := by
  cases s with
  | mk l => show String.mk (l ++ []) = String.mk l; rw [List.append_nil]

/-- A list is a `isPrefixOf`-prefix of itself followed by anything. -/
theorem isPrefixOf_append_self {α : Type} [BEq α] [LawfulBEq α] (l t : List α) :
    l.isPrefixOf (l ++ t) = true := by
  rw [List.isPrefixOf_iff_prefix]
  exact List.prefix_append l t

/-- Mapping a function that fixes every element is the identity. -/
theorem map_id_of_mem {α : Type} (l : List α) (g : α → α)
    (h : ∀ c ∈ l, g c = c) : l.map g = l := by
  induction l with
  | nil => rfl
  | cons a t ih =>
    simp only [List.map_cons, h a (by simp), List.cons.injEq, true_and]
    exact ih (fun c hc => h c (by simp [hc]))

/-- `v or \x22\x22` on a JSON string is the string itself: an empty
string collapses to the (equal) empty default. -/
theorem pyOrEmpty_str (c : String) : pyOrEmpty (Json.str c) = .ok c := by
  by_cases hc : c = ""
  · subst hc; rfl
  · simp [pyOrEmpty, pyTruthy, hc]

/-- `parse_stream_line` on a line carrying the `data: ` prefix reduces to
the payload dispatch. -/
theorem parse_stream_line_payload (verbose : Bool) (payload : List Char) :
    parse_stream_line verbose (dataMarker ++ payload) =
      (if payload = doneChars then (LineResult.skip, [])
       else
         match jsonParseChars payload with
         | some j =>
           (match j with
            | Json.obj kvs =>
              if truthyOpt (objGet kvs "choices") then (LineResult.event j, [])
              else (LineResult.skip, [])
            | _ => (LineResult.fail "AttributeError: get", []))
         | none => (LineResult.skip, decodeErrorDiags verbose payload)) := by
  have h1 : (dataMarker ++ payload = []) = False := by simp [dataMarker]
  have hpre : dataMarker.isPrefixOf (dataMarker ++ payload) = true :=
    isPrefixOf_append_self dataMarker payload
  have hdrop : (dataMarker ++ payload).drop 6 = payload := by simp [dataMarker]
  simp only [parse_stream_line, h1, hpre, hdrop, Bool.not_true, Bool.false_eq_true,
    if_false, ite_false]

/-! ### Claim theorems for the streaming decoder -/

/-- C1: feeding the lines
`data: \x7b"choices":[\x7b"delta":\x7b"content":"Hello"\x7d\x7d]\x7d`,
`data: \x7b"choices":[\x7b"delta":\x7b"content":" World"\x7d\x7d]\x7d`,
`data: [DONE]` through `_parse_stream_line` and the `_print_stream` fold
yields the accumulated answer text `"Hello World"` (two delta events, no
diagnostics, reasoning flag off). -/
theorem stream_hello_world :
    print_stream false
      ["data: \x7b\"choices\":[\x7b\"delta\":\x7b\"content\":\"Hello\"\x7d\x7d]\x7d".data,
       "data: \x7b\"choices\":[\x7b\"delta\":\x7b\"content\":\" World\"\x7d\x7d]\x7d".data,
       "data: [DONE]".data] =
      StreamOutcome.done ⟨"Hello World", false⟩ 2 [] := by rfl

/-- C2 counterexample: the claim says decoding terminates at the
`[DONE]` sentinel and no later line produces an event or mutates the
buffer; in the code the sentinel is merely skipped (`continue`, not
`break`), so a content line placed after it still produces one event and
mutates the buffer to `"Hello"`. -/
theorem done_not_terminating_cex :
    print_stream false
      ["data: [DONE]".data,
       "data: \x7b\"choices\":[\x7b\"delta\":\x7b\"content\":\"Hello\"\x7d\x7d]\x7d".data] =
      StreamOutcome.done ⟨"Hello", false⟩ 1 [] ∧ ("Hello" : String) ≠ "" :=
  ⟨by rfl, by decide⟩

/-- C2 amended: a `[DONE]` line produces no delta event, no diagnostic
and no error and leaves the accumulator untouched, but it does not
terminate decoding — the remaining lines are processed exactly as if the
sentinel line were absent. -/
theorem done_skip_continue (verbose : Bool) (st : StreamState) (ev : Nat)
    (ds : List String) (rest : List (List Char)) :
    stream_step verbose (dataMarker ++ doneChars) st = .ok (st, false, []) ∧
    print_stream_from verbose ((dataMarker ++ doneChars) :: rest) st ev ds =
      print_stream_from verbose rest st ev ds := by
  have h : stream_step verbose (dataMarker ++ doneChars) st = .ok (st, false, []) := rfl
  refine ⟨h, ?_⟩
  simp only [print_stream_from, h]
  simp

/-- C3: from the initial accumulator state, a reasoning-only delta
followed by a content-only delta yields the quoted reasoning block, the
blank-line separator, then the plain content, with `in_reasoning` false
at the end. -/
theorem reasoning_then_content_transition (r c : String) :
    handle_delta (Json.obj [("reasoning_content", Json.str r)]) ⟨"", false⟩ =
      .ok ⟨"> Reasoning:\n> " ++ pyReplaceLF r, true⟩ ∧
    handle_delta (Json.obj [("content", Json.str c)])
        ⟨"> Reasoning:\n> " ++ pyReplaceLF r, true⟩ =
      .ok ⟨(("> Reasoning:\n> " ++ pyReplaceLF r) ++ "\n\n") ++ c, false⟩ := by
  constructor
  · rfl
  · have key : handle_delta (Json.obj [("content", Json.str c)])
        ⟨"> Reasoning:\n> " ++ pyReplaceLF r, true⟩ =
        (pyOrEmpty (Json.str c)) >>= (fun c2 =>
          .ok ⟨(("> Reasoning:\n> " ++ pyReplaceLF r) ++ "\n\n") ++ c2, false⟩) := rfl
    rw [key, pyOrEmpty_str, except_bind_ok]

/-- C4 counterexample: the claim says the diagnostic for a dropped
malformed line is emitted only in verbose mode; the code prints a
generic decode-error message unconditionally, so the drop is not silent
in non-verbose mode. -/
theorem decode_error_not_silent_cex :
    parse_stream_line false ("data: x".data) =
      (LineResult.skip, ["[red]Error decoding response JSON[/red]"]) ∧
    (["[red]Error decoding response JSON[/red]"] : List String) ≠ [] :=
  ⟨by rfl, by decide⟩

/-- C4 amended: a line whose payload fails to parse as JSON is dropped
without an event and without an error, and decoding of the remaining
lines continues; a generic diagnostic is always emitted for the dropped
line, and the payload-bearing diagnostic is added only in verbose
mode. -/
theorem decode_skip_diagnostics (verbose : Bool) (st : StreamState)
    (payload : List Char) (ev : Nat) (ds : List String)
    (rest : List (List Char))
    (hbad : jsonParseChars payload = none) (hdone : payload ≠ doneChars) :
    stream_step verbose (dataMarker ++ payload) st =
      .ok (st, false, decodeErrorDiags verbose payload) ∧
    print_stream_from verbose ((dataMarker ++ payload) :: rest) st ev ds =
      print_stream_from verbose rest st ev
        (ds ++ decodeErrorDiags verbose payload) := by
  have hline : parse_stream_line verbose (dataMarker ++ payload) =
      (LineResult.skip, decodeErrorDiags verbose payload) := by
    rw [parse_stream_line_payload, if_neg hdone, hbad]
  have hstep : stream_step verbose (dataMarker ++ payload) st =
      .ok (st, false, decodeErrorDiags verbose payload) := by
    unfold stream_step
    rw [hline]
  refine ⟨hstep, ?_⟩
  simp only [print_stream_from, hstep]
  simp

/-- C5 counterexample: the claim says a parsed line whose first choice
lacks a `delta` field is skipped without an error; in the code the
subscript `json_data[\x22choices\x22][0][\x22delta\x22]` raises
`KeyError`, aborting the stream processing. -/
theorem missing_delta_raises_cex :
    print_stream false ["data: \x7b\"choices\":[\x7b\x7d]\x7d".data] =
      StreamOutcome.failed "KeyError: delta" := by rfl

/-- C5 amended: a parsed JSON object whose `choices` key is absent or
falsy (for instance an empty list) is skipped without an event, a
diagnostic or an error, and decoding continues; but a parsed object
whose first choice is an object lacking a `delta` field raises
`KeyError: delta`, which aborts the stream processing instead of
skipping the line. -/
theorem choices_skip_delta_error (verbose : Bool) (st : StreamState)
    (p1 p2 : List Char) (kvs cs dl : List (String × Json)) (t : List Json)
    (ev : Nat) (ds : List String) (rest : List (List Char))
    (h1 : jsonParseChars p1 = some (Json.obj kvs))
    (hno : truthyOpt (objGet kvs "choices") = false)
    (h1d : p1 ≠ doneChars)
    (h2 : jsonParseChars p2 = some (Json.obj cs))
    (hch : objGet cs "choices" = some (Json.arr (Json.obj dl :: t)))
    (hnd : objGet dl "delta" = none)
    (h2d : p2 ≠ doneChars) :
    (stream_step verbose (dataMarker ++ p1) st = .ok (st, false, []) ∧
     print_stream_from verbose ((dataMarker ++ p1) :: rest) st ev ds =
       print_stream_from verbose rest st ev ds) ∧
    stream_step verbose (dataMarker ++ p2) st = .error "KeyError: delta" ∧
    print_stream_from verbose ((dataMarker ++ p2) :: rest) st ev ds =
      StreamOutcome.failed "KeyError: delta" := by
  have hline1 : parse_stream_line verbose (dataMarker ++ p1) =
      (LineResult.skip, []) := by
    rw [parse_stream_line_payload, if_neg h1d, h1]
    simp [hno]
  have hstep1 : stream_step verbose (dataMarker ++ p1) st =
      .ok (st, false, []) := by
    unfold stream_step
    rw [hline1]
  have htr : truthyOpt (objGet cs "choices") = true := by
    rw [hch]; rfl
  have hline2 : parse_stream_line verbose (dataMarker ++ p2) =
      (LineResult.event (Json.obj cs), []) := by
    rw [parse_stream_line_payload, if_neg h2d, h2]
    simp [htr]
  have hsub1 : pySubscriptStr (Json.obj cs) "choices" =
      .ok (Json.arr (Json.obj dl :: t)) := by
    simp only [pySubscriptStr, hch]
  have hsub2 : pySubscriptNat (Json.arr (Json.obj dl :: t)) 0 =
      .ok (Json.obj dl) := rfl
  have hsub3 : pySubscriptStr (Json.obj dl) "delta" =
      Except.error "KeyError: delta" := by
    simp only [pySubscriptStr, hnd]
    rfl
  have hdelta : get_delta (Json.obj cs) = Except.error "KeyError: delta" := by
    unfold get_delta
    simp only [hsub1, except_bind_ok, hsub2, hsub3]
  have hstep2 : stream_step verbose (dataMarker ++ p2) st =
      .error "KeyError: delta" := by
    unfold stream_step
    rw [hline2]
    simp only [hdelta, except_bind_err]
  refine ⟨⟨hstep1, ?_⟩, hstep2, ?_⟩
  · simp only [print_stream_from, hstep1]
    simp
  · simp only [print_stream_from, hstep2]

/-- C6 counterexample: the claim says a delta carrying neither reasoning
nor content never changes the buffer; when `in_reasoning` is true the
code's regular-content path still appends the blank-line separator, so
the buffer changes from `"x"` to `"x\n\n"`. -/
theorem empty_delta_buffer_change_cex :
    stream_step false ("data: \x7b\"choices\":[\x7b\"delta\":\x7b\x7d\x7d]\x7d".data)
        ⟨"x", true⟩ =
      .ok (⟨"x\n\n", false⟩, true, []) ∧ ("x\n\n" : String) ≠ "x" :=
  ⟨by rfl, by decide⟩

/-- C6 amended: a delta object carrying neither reasoning text nor
answer content leaves the buffer unchanged when `in_reasoning` is false,
but when `in_reasoning` is true it closes the reasoning block: the
blank-line separator is appended and the flag is cleared. -/
theorem empty_delta_frame (st : StreamState) (kvs : List (String × Json))
    (h1 : objGet kvs "reasoning_content" = none)
    (h2 : objGet kvs "reasoning" = none)
    (h3 : objGet kvs "content" = none ∨ objGet kvs "content" = some Json.null ∨
          objGet kvs "content" = some (Json.str "")) :
    handle_delta (Json.obj kvs) st =
      .ok ⟨if st.in_reasoning then st.full_content ++ "\n\n"
           else st.full_content, false⟩ := by
  obtain ⟨buf, ir⟩ := st
  have hre : get_reasoning_content (Json.obj kvs) = .ok none := by
    unfold get_reasoning_content pyIn
    simp only [except_bind_ok, h1, h2, Option.isSome_none, Bool.false_eq_true,
      if_false]
    rfl
  have key : handle_delta (Json.obj kvs) ⟨buf, ir⟩ =
      (pyDictGet (Json.obj kvs) "content" (Json.str "")) >>= (fun cv =>
        (pyOrEmpty cv) >>= (fun c =>
          pure ⟨(process_regular_content c buf ir).1,
                (process_regular_content c buf ir).2⟩)) := by
    unfold handle_delta
    rw [hre, except_bind_ok]
  rw [key]
  have hget : pyDictGet (Json.obj kvs) "content" (Json.str "") =
      .ok ((objGet kvs "content").getD (Json.str "")) := rfl
  rcases h3 with h3 | h3 | h3 <;>
    rw [hget, h3] <;>
    cases ir <;>
    simp [pyOrEmpty, pyTruthy, process_regular_content, string_append_empty,
      except_bind_ok]

/-- C7 (implicit in the code): when `in_reasoning` is false, a delta
carrying reasoning text resets the buffer to the quoted header plus the
transformed reasoning text — all previously accumulated content is
discarded, whatever the (non-empty) buffer held. -/
theorem reasoning_replaces_buffer (kvs : List (String × Json)) (buf r : String)
    (hb : buf ≠ "")
    (hr : get_reasoning_content (Json.obj kvs) = .ok (some (Json.str r))) :
    handle_delta (Json.obj kvs) ⟨buf, false⟩ =
      .ok ⟨"> Reasoning:\n> " ++ pyReplaceLF r, true⟩ := by
  unfold handle_delta
  rw [hr, except_bind_ok]
  rfl

/-- C8: `get_reasoning_content` probes `reasoning_content` then
`reasoning` in that order and returns the value of the first key that is
present; with neither key present it returns the absent value, which the
caller treats as answer content. -/
theorem reasoning_field_priority (kvs : List (String × Json)) :
    get_reasoning_content (Json.obj kvs) =
      .ok (match objGet kvs "reasoning_content" with
           | some v => some v
           | none =>
             match objGet kvs "reasoning" with
             | some v => some v
             | none => none) := by
  unfold get_reasoning_content pyIn pySubscriptStr
  cases h1 : objGet kvs "reasoning_content" <;>
    cases h2 : objGet kvs "reasoning" <;>
    simp [h1, h2, except_bind_ok, pure, Except.pure]

/-- C9: when `in_reasoning` is already true, a delta carrying reasoning
text appends the transformed reasoning text (line breaks re-prefixed
with the quote marker) to the existing buffer without re-emitting the
header, and the flag stays true. -/
theorem reasoning_append_mode (kvs : List (String × Json)) (st : StreamState)
    (r : String)
    (hir : st.in_reasoning = true)
    (hr : get_reasoning_content (Json.obj kvs) = .ok (some (Json.str r))) :
    handle_delta (Json.obj kvs) st =
      .ok ⟨st.full_content ++ pyReplaceLF r, true⟩ := by
  obtain ⟨buf, ir⟩ := st
  subst hir
  unfold handle_delta
  rw [hr, except_bind_ok]
  rfl

/-! ### Lemmas on the filename codec -/

/-- Decimal digit characters are never the letter `t`. -/
theorem digitChar_lt_ten_ne_t : ∀ m : Nat, m < 10 → Nat.digitChar m ≠ 't' := by
  decide

/-- No character of a two-digit pad is `t`. -/
theorem pad2_ne_t (n : Nat) : ∀ c ∈ pad2 n, c ≠ 't' := by
  intro c hc
  simp only [pad2, List.mem_cons, List.not_mem_nil, or_false] at hc
  rcases hc with rfl | rfl <;>
    exact digitChar_lt_ten_ne_t _ (Nat.mod_lt _ (by norm_num))

/-- No character of a four-digit pad is `t`. -/
theorem pad4_ne_t (n : Nat) : ∀ c ∈ pad4 n, c ≠ 't' := by
  intro c hc
  simp only [pad4, List.mem_cons, List.not_mem_nil, or_false] at hc
  rcases hc with rfl | rfl | rfl | rfl <;>
    exact digitChar_lt_ten_ne_t _ (Nat.mod_lt _ (by norm_num))

/-- A pointwise property over an append splits over the two parts. -/
theorem mem_append_ne {α : Type} {P : α → Prop} {l1 l2 : List α}
    (h1 : ∀ c ∈ l1, P c) (h2 : ∀ c ∈ l2, P c) : ∀ c ∈ l1 ++ l2, P c := by
  intro c hc
  rcases List.mem_append.mp hc with h | h
  · exact h1 c h
  · exact h2 c h

/-- No character of the timestamp prefix is `t`, so the `-title-`
separator cannot begin inside it. -/
theorem tsChars_ne_t (t : DateTime) : ∀ c ∈ tsChars t, c ≠ 't' := by
  unfold tsChars
  exact mem_append_ne (mem_append_ne (mem_append_ne (mem_append_ne
    (mem_append_ne (mem_append_ne (pad4_ne_t _) (pad2_ne_t _)) (pad2_ne_t _))
    (by decide)) (pad2_ne_t _)) (pad2_ne_t _)) (pad2_ne_t _)

/-- Splitting a list that starts with the separator yields the empty
left part. -/
theorem splitOnFirst_self (sep post : List Char) (h : sep ≠ []) :
    splitOnFirst sep (sep ++ post) = some ([], post) := by
  cases sep with
  | nil => exact absurd rfl h
  | cons a as =>
    have hc : (a :: as).isPrefixOf (a :: (as ++ post)) = true := by
      have := isPrefixOf_append_self (a :: as) post
      rwa [List.cons_append] at this
    show splitOnFirst (a :: as) (a :: (as ++ post)) = some ([], post)
    simp only [splitOnFirst, hc, if_true]
    simp [List.drop_succ_cons, List.drop_left]

/-- Splitting at the first `-title-` of an encoded filename stem
recovers the timestamp part and the slug: the separator cannot occur
earlier because every earlier window lacks a `t` in second position. -/
theorem splitOnFirst_encode (pre post : List Char)
    (h : ∀ c ∈ pre, c ≠ 't') :
    splitOnFirst sepChars (pre ++ (sepChars ++ post)) = some (pre, post) := by
  induction pre with
  | nil =>
    simpa using splitOnFirst_self sepChars post (by decide)
  | cons a pre ih =>
    have h' : ∀ c ∈ pre, c ≠ 't' :=
      fun c hc => h c (List.mem_cons_of_mem a hc)
    have hnp : sepChars.isPrefixOf (a :: (pre ++ (sepChars ++ post))) = false := by
      cases pre with
      | nil =>
        show sepChars.isPrefixOf (a :: ([] ++ ('-' :: 't' :: 'i' :: 't' :: 'l' :: 'e' :: '-' :: post))) = false
        simp [sepChars, List.isPrefixOf]
      | cons b pre2 =>
        have hb : ('t' == b) = false :=
          beq_eq_false_iff_ne.mpr (Ne.symm (h' b (List.mem_cons_self b pre2)))
        show sepChars.isPrefixOf (a :: b :: (pre2 ++ (sepChars ++ post))) = false
        simp [sepChars, List.isPrefixOf, hb]
    show splitOnFirst sepChars (a :: (pre ++ (sepChars ++ post))) =
      some (a :: pre, post)
    simp only [splitOnFirst, hnp, Bool.false_eq_true, if_false]
    rw [ih h']

/-- Stripping the `.json` extension recovers the stem. -/
theorem stemOf_append_ext (x : List Char) : stemOf (x ++ extChars) = x := by
  have hsuf : extChars.isSuffixOf (x ++ extChars) = true := by
    unfold List.isSuffixOf
    rw [List.reverse_append]
    exact isPrefixOf_append_self _ _
  unfold stemOf
  rw [if_pos hsuf]
  have hlen : (x ++ extChars).length - 5 = x.length := by
    simp [extChars]
  rw [hlen, List.take_left]

/-- Underscore-free titles survive the slug round trip. -/
theorem slug_roundtrip (title : String) (h : ∀ c ∈ title.data, c ≠ '_') :
    (title.data.map toSlugChar).map fromSlugChar = title.data := by
  rw [List.map_map]
  apply map_id_of_mem
  intro c hc
  by_cases hsp : c = ' '
  · subst hsp; rfl
  · have hu : c ≠ '_' := h c hc
    simp [Function.comp, toSlugChar, fromSlugChar, hsp, hu]

/-- Eviction never touches a list already within the cap. -/
theorem evictAux_le (fuel : Nat) (files : List SessionFile) (cap : Nat)
    (keep : List Char) (h : files.length ≤ cap) :
    evictAux fuel files cap keep = files := by
  cases fuel with
  | zero => rfl
  | succ n =>
    unfold evictAux
    rw [if_pos h]

/-- `evict` is the identity when the file count is within the cap. -/
theorem evict_le (files : List SessionFile) (cap : Nat) (keep : List Char)
    (h : files.length ≤ cap) : evict files cap keep = files :=
  evictAux_le _ _ _ _ h

/-! ### Claim theorems for the chat store -/

/-- C10 counterexample: the round trip fails for a title containing an
underscore — `saveChat` returns the title `a_b`, but the filename slug
decodes back to `a b`, so `loadChatByTitle "a_b"` finds nothing even
though the history was non-empty and the file was written. -/
theorem roundtrip_underscore_cex :
    (save_chat ⟨[], 10⟩ [⟨"user", "hi"⟩] (some "a_b") ⟨2023, 4, 1, 12, 0, 0⟩ 100).2
      = "a_b" ∧
    load_chat_by_title
      (save_chat ⟨[], 10⟩ [⟨"user", "hi"⟩] (some "a_b") ⟨2023, 4, 1, 12, 0, 0⟩ 100).1
      "a_b" = none ∧
    ([⟨"user", "hi"⟩] : List ChatMessage) ≠ [] :=
  ⟨by rfl, by rfl, by decide⟩

/-- C10 amended: for every non-empty history, every save-time timestamp,
every positive cap and every title free of underscores, saving into an
empty store and loading back by the returned title yields the saved
history unchanged (order included).  Titles containing underscores are
excluded: the filename codec maps their slug back to a different display
title, so the lookup misses. -/
theorem save_load_roundtrip (history : List ChatMessage) (title : String)
    (now : DateTime) (unix cap : Nat)
    (hne : history ≠ []) (hcap : 1 ≤ cap)
    (hus : ∀ c ∈ title.data, c ≠ '_') :
    (save_chat ⟨[], cap⟩ history (some title) now unix).2 = title ∧
    (load_chat_by_title (save_chat ⟨[], cap⟩ history (some title) now unix).1
        (save_chat ⟨[], cap⟩ history (some title) now unix).2).map
      SessionData.history = some history := by
  cases history with
  | nil => exact absurd rfl hne
  | cons m hist =>
    have hsave : save_chat ⟨[], cap⟩ (m :: hist) (some title) now unix =
        (⟨[⟨encodeFilename now title,
            ⟨title, String.mk (tsChars now), m :: hist⟩, unix⟩], cap⟩, title) := by
      unfold save_chat
      simp only [List.isEmpty_cons, Bool.false_eq_true, if_false,
        Option.getD_some, List.any_nil, List.nil_append]
      rw [evict_le _ _ _ (by simpa using hcap)]
    have hdecode : decodeStem (stemOf (encodeFilename now title)) =
        ⟨title, dateDisplay (tsChars now)⟩ := by
      have hfn : encodeFilename now title =
          (tsChars now ++ (sepChars ++ title.data.map toSlugChar)) ++ extChars := by
        simp [encodeFilename, List.append_assoc]
      rw [hfn, stemOf_append_ext]
      unfold decodeStem
      rw [splitOnFirst_encode (tsChars now) (title.data.map toSlugChar)
        (tsChars_ne_t now)]
      show (⟨String.mk ((title.data.map toSlugChar).map fromSlugChar),
            dateDisplay (tsChars now)⟩ : ChatInfo) =
        ⟨title, dateDisplay (tsChars now)⟩
      rw [slug_roundtrip title hus]
    have hlist : list_chats
        ⟨[⟨encodeFilename now title,
           ⟨title, String.mk (tsChars now), m :: hist⟩, unix⟩], cap⟩ =
        [⟨1, title, dateDisplay (tsChars now), encodeFilename now title⟩] := by
      show [(⟨0 + 1, (decodeStem (stemOf (encodeFilename now title))).title,
            (decodeStem (stemOf (encodeFilename now title))).date,
            encodeFilename now title⟩ : ChatListing)] = _
      rw [hdecode]
    rw [hsave]
    refine ⟨rfl, ?_⟩
    unfold load_chat_by_title
    rw [hlist]
    simp [List.find?_cons]

/-! ### Witnesses -/

/-- Witness for `decode_skip_diagnostics` at the malformed payload `x`
in non-verbose mode. -/
theorem decode_skip_diagnostics_witness :
    stream_step false (dataMarker ++ ['x']) ⟨"", false⟩ =
      .ok (⟨"", false⟩, false, decodeErrorDiags false ['x']) ∧
    print_stream_from false ((dataMarker ++ ['x']) :: []) ⟨"", false⟩ 0 [] =
      print_stream_from false [] ⟨"", false⟩ 0
        ([] ++ decodeErrorDiags false ['x']) :=
  decode_skip_diagnostics false ⟨"", false⟩ ['x'] 0 [] [] (by rfl) (by decide)

/-- Witness for `choices_skip_delta_error` at the payloads
`\x7b"choices":[]\x7d` (skipped) and `\x7b"choices":[\x7b\x7d]\x7d`
(KeyError). -/
theorem choices_skip_delta_error_witness :
    (stream_step false (dataMarker ++ "\x7b\"choices\":[]\x7d".data) ⟨"", false⟩ =
       .ok (⟨"", false⟩, false, []) ∧
     print_stream_from false ((dataMarker ++ "\x7b\"choices\":[]\x7d".data) :: [])
         ⟨"", false⟩ 0 [] =
       print_stream_from false [] ⟨"", false⟩ 0 []) ∧
    stream_step false (dataMarker ++ "\x7b\"choices\":[\x7b\x7d]\x7d".data)
        ⟨"", false⟩ = .error "KeyError: delta" ∧
    print_stream_from false
        ((dataMarker ++ "\x7b\"choices\":[\x7b\x7d]\x7d".data) :: [])
        ⟨"", false⟩ 0 [] =
      StreamOutcome.failed "KeyError: delta" :=
  choices_skip_delta_error false ⟨"", false⟩
    "\x7b\"choices\":[]\x7d".data "\x7b\"choices\":[\x7b\x7d]\x7d".data
    [("choices", Json.arr [])] [("choices", Json.arr [Json.obj []])] [] []
    0 [] [] (by rfl) (by rfl) (by decide) (by rfl) (by rfl) (by rfl) (by decide)

/-- Witness for `empty_delta_frame` at the empty delta object in a
reasoning-mode state. -/
theorem empty_delta_frame_witness :
    handle_delta (Json.obj []) ⟨"x", true⟩ = .ok ⟨"x" ++ "\n\n", false⟩ :=
  empty_delta_frame ⟨"x", true⟩ [] (by rfl) (by rfl) (Or.inl (by rfl))

/-- Witness for `reasoning_replaces_buffer`: a reasoning delta wipes the
previously accumulated buffer `prev`. -/
theorem reasoning_replaces_buffer_witness :
    handle_delta (Json.obj [("reasoning_content", Json.str "R")]) ⟨"prev", false⟩ =
      .ok ⟨"> Reasoning:\n> " ++ pyReplaceLF "R", true⟩ :=
  reasoning_replaces_buffer [("reasoning_content", Json.str "R")] "prev" "R"
    (by decide) (by rfl)

/-- Witness for `reasoning_append_mode`: further reasoning text is
appended to the existing quoted block under the `reasoning` key. -/
theorem reasoning_append_mode_witness :
    handle_delta (Json.obj [("reasoning", Json.str "more")])
        ⟨"> Reasoning:\n> R", true⟩ =
      .ok ⟨"> Reasoning:\n> R" ++ pyReplaceLF "more", true⟩ :=
  reasoning_append_mode [("reasoning", Json.str "more")]
    ⟨"> Reasoning:\n> R", true⟩ "more" (by rfl) (by rfl)

/-- Witness for `save_load_roundtrip` at the title `Test Chat` and a
one-message history. -/
theorem save_load_roundtrip_witness :
    (save_chat ⟨[], 10⟩ [⟨"user", "Hello"⟩] (some "Test Chat")
        ⟨2023, 4, 1, 12, 0, 0⟩ 100).2 = "Test Chat" ∧
    (load_chat_by_title
        (save_chat ⟨[], 10⟩ [⟨"user", "Hello"⟩] (some "Test Chat")
          ⟨2023, 4, 1, 12, 0, 0⟩ 100).1
        (save_chat ⟨[], 10⟩ [⟨"user", "Hello"⟩] (some "Test Chat")
          ⟨2023, 4, 1, 12, 0, 0⟩ 100).2).map SessionData.history =
      some [⟨"user", "Hello"⟩] :=
  save_load_roundtrip [⟨"user", "Hello"⟩] "Test Chat" ⟨2023, 4, 1, 12, 0, 0⟩
    100 10 (by decide) (by decide) (by decide)

end Yaicli
